import Mathlib

/-!
Shallow embedding of `src/rule-manager.js`: a per-session policy hook that
classifies user prompts, gates tool use on session flags, and clears flags at
session boundaries.  Marker files under the state directory are modelled as
association lists keyed by session id; the process's single JSON response,
output channel and exit code are modelled by the `HookResult` structure.
-/

namespace RuleManager

/-- The JavaScript regex class `\s` (whitespace), by code point. -/
def jsWs (c : Char) : Bool :=
  decide (c.toNat = 9 ∨ c.toNat = 10 ∨ c.toNat = 11 ∨ c.toNat = 12 ∨ c.toNat = 13 ∨
    c.toNat = 32 ∨ c.toNat = 160 ∨ c.toNat = 0x1680 ∨
    (0x2000 ≤ c.toNat ∧ c.toNat ≤ 0x200a) ∨ c.toNat = 0x2028 ∨ c.toNat = 0x2029 ∨
    c.toNat = 0x202f ∨ c.toNat = 0x205f ∨ c.toNat = 0x3000 ∨ c.toNat = 0xfeff)

/-- The JavaScript regex class `\w` (word characters `[A-Za-z0-9_]`). -/
def wordChar (c : Char) : Bool :=
  decide ((97 ≤ c.toNat ∧ c.toNat ≤ 122) ∨ (65 ≤ c.toNat ∧ c.toNat ≤ 90) ∨
    (48 ≤ c.toNat ∧ c.toNat ≤ 57) ∨ c.toNat = 95)

/-- The JavaScript regex `.` without the dotAll flag: any char except a line
terminator. -/
def dotChar (c : Char) : Bool :=
  decide (¬ (c.toNat = 10 ∨ c.toNat = 13 ∨ c.toNat = 0x2028 ∨ c.toNat = 0x2029))

/-- ASCII lowercasing, the case folding relevant to the `/i`-flag matches in
`rule-manager.js` (all marker characters are ASCII). -/
def lowerAscii (c : Char) : Char :=
  if 65 ≤ c.toNat ∧ c.toNat ≤ 90 then Char.ofNat (c.toNat + 32) else c

/-- True when the list is empty or its head fails the predicate; used for
regex boundaries (`\b` after a word, end of a whitespace run). -/
def headFails (f : Char → Bool) : List Char → Bool
  | [] => true
  | c :: _ => !f c

/-- The allow-list `SAFE_TOOLS` of read-only tools (rule-manager.js lines
11-21), in source order. -/
def SAFE_TOOLS : List String :=
  ["Read", "Grep", "Glob", "LS", "WebFetch", "WebSearch",
   "ListMcpResourcesTool", "ReadMcpResourceTool", "TodoRead"]

/-- `SAFE_TOOLS.has(toolName)`: membership test on the resolved tool name;
an absent (`undefined`) tool name is never a member. -/
def isSafeTool : Option String → Bool
  | some t => SAFE_TOOLS.contains t
  | none => false

/-- `isQuestionPrefix` (line 96): the regex test `/^Q:\s/.test(prompt)`. -/
def isQuestionPrefix (prompt : String) : Bool :=
  match prompt.data with
  | c1 :: c2 :: c3 :: _ => c1 == 'Q' && c2 == ':' && jsWs c3
  | _ => false

/-- `prompt.replace(/^Q:\s*/, '')` (line 148): drop the `Q:` marker and the
maximal run of following whitespace; a prompt without the marker is returned
unchanged. -/
def stripQuestion (prompt : String) : String :=
  match prompt.data with
  | c1 :: c2 :: rest =>
    if c1 = 'Q' ∧ c2 = ':' then String.mk (rest.dropWhile jsWs) else prompt
  | _ => prompt

/-- The characters of the commit-approval marker `commit!`. -/
def commitMarker : List Char := ['c', 'o', 'm', 'm', 'i', 't', '!']

/-- Match a lowercase pattern case-insensitively against the front of a list,
returning the remainder on success. -/
def stripCI : List Char → List Char → Option (List Char)
  | [], l => some l
  | _ :: _, [] => none
  | p :: ps, c :: l => if lowerAscii c = p then stripCI ps l else none

/-- `isCommitPrefix` (line 101): the regex test `/^commit!(\s|$)/i.test(prompt)`. -/
def isCommitPrefix (prompt : String) : Bool :=
  match stripCI commitMarker prompt.data with
  | some [] => true
  | some (c :: _) => jsWs c
  | none => false

/-- `prompt.replace(/^commit!\s*/i, '')` (line 161): drop the case-insensitive
marker and the maximal run of following whitespace. -/
def stripCommit (prompt : String) : String :=
  match stripCI commitMarker prompt.data with
  | some rest => String.mk (rest.dropWhile jsWs)
  | none => prompt

/-- Match a literal character sequence, then continue with `k` on the rest. -/
def matchLit : List Char → (List Char → Bool) → List Char → Bool
  | [], k, l => k l
  | _ :: _, _, [] => false
  | p :: ps, k, c :: l => p == c && matchLit ps k l

/-- Zero or more characters of class `f`, then a continuation `k`, at any
split point (the existential semantics of a regex `x*`). -/
def matchClsStar (f : Char → Bool) (k : List Char → Bool) : List Char → Bool
  | [] => k []
  | c :: l => k (c :: l) || (f c && matchClsStar f k l)

/-- One or more characters of class `f`, then a continuation `k` (regex `x+`). -/
def matchClsPlus (f : Char → Bool) (k : List Char → Bool) : List Char → Bool
  | [] => false
  | c :: l => f c && matchClsStar f k l

/-- The regex fragment `commit\b`: the literal, then end of input or a
non-word character. -/
def commitB : List Char → Bool :=
  matchLit ['c', 'o', 'm', 'm', 'i', 't'] (headFails wordChar)

/-- The regex `\bgit\s+commit\b` right after its leading boundary. -/
def p1At : List Char → Bool :=
  matchLit ['g', 'i', 't'] (matchClsPlus jsWs commitB)

/-- The regex `\bgit\s+.*\s+commit\b` right after its leading boundary. -/
def p2At : List Char → Bool :=
  matchLit ['g', 'i', 't'] (matchClsPlus jsWs (matchClsStar dotChar (matchClsPlus jsWs commitB)))

/-- Scan for a match position whose left context satisfies `\b` (the previous
character is not a word character, or the position is the start); the flag
records whether the previous character was a word character. -/
def searchB (atPos : List Char → Bool) : Bool → List Char → Bool
  | _, [] => false
  | prevWord, c :: l => (!prevWord && atPos (c :: l)) || searchB atPos (wordChar c) l

/-- `isGitCommit` (lines 106-113): some of the two patterns
`/\bgit\s+commit\b/` and `/\bgit\s+.*\s+commit\b/` matches the command. -/
def isGitCommit (command : String) : Bool :=
  searchB p1At false command.data || searchB p2At false command.data

/-- The durable marker files of one flag kind: an association list from
session id to the stored residual text. -/
def FlagMap : Type := List (String × String)

/-- `fileExists` composed with lookup: the stored text of a session's flag,
or `none` when the marker file is absent. -/
def getFlag (sid : String) : List (String × String) → Option String
  | [] => none
  | (k, v) :: m => if k = sid then some v else getFlag sid m

/-- Remove every record of a session (`deleteMarkerFile`, which ignores an
already-absent file). -/
def eraseKey (sid : String) : List (String × String) → List (String × String)
  | [] => []
  | (k, v) :: m => if k = sid then eraseKey sid m else (k, v) :: eraseKey sid m

/-- `createMarkerFile`: write (overwriting) the session's marker file. -/
def setFlag (sid text : String) (m : List (String × String)) : List (String × String) :=
  (sid, text) :: eraseKey sid m

/-- The state directory: one question marker and one commit marker per session. -/
structure Store where
  question : List (String × String)
  commit : List (String × String)
deriving Repr, DecidableEq

/-- `cleanupSession` (lines 90-93): delete both marker files of the session. -/
def cleanupSession (sid : String) (st : Store) : Store :=
  { question := eraseKey sid st.question, commit := eraseKey sid st.commit }

/-- The `command` field of a tool-input payload. -/
structure ToolInput where
  command : Option String
deriving Repr, DecidableEq

/-- The parsed hook event: the fields `handleHook` reads, each optional field
`none` when absent from the JSON. -/
structure HookData where
  session_id : Option String
  hook_event_name : String
  prompt : Option String
  tool_name : Option String
  tool : Option String
  tool_input : Option ToolInput
  params : Option ToolInput
  parameters : Option ToolInput
deriving Repr, DecidableEq

/-- `hookData.session_id || 'unknown'` (line 127): absent or empty (falsy)
session ids default to the sentinel. -/
def sessionOf (d : HookData) : String :=
  match d.session_id with
  | some s => if s = "" then "unknown" else s
  | none => "unknown"

/-- `hookData.tool_name || hookData.tool` (line 200): the legacy alias is used
when `tool_name` is absent or empty (falsy). -/
def toolNameOf (d : HookData) : Option String :=
  match d.tool_name with
  | some s => if s = "" then d.tool else some s
  | none => d.tool

/-- `hookData.tool_input || hookData.params || hookData.parameters` (line 201). -/
def toolParamsOf (d : HookData) : Option ToolInput :=
  match d.tool_input with
  | some ti => some ti
  | none =>
    match d.params with
    | some ti => some ti
    | none => d.parameters

/-- The truthy `toolParams?.command` (line 233): `none` when the params or the
field are absent, or the command is the empty string (falsy). -/
def commandOf (d : HookData) : Option String :=
  match toolParamsOf d with
  | none => none
  | some ti =>
    match ti.command with
    | none => none
    | some c => if c = "" then none else some c

/-- The single JSON body a run emits. -/
inductive Response where
  | empty
  | questionContext (msg : String)
  | error (msg : String)
deriving Repr, DecidableEq

/-- The output channel the body is written to. -/
inductive Channel where
  | stdout
  | stderr
deriving Repr, DecidableEq

/-- One invocation's observable outcome: the emitted body, its channel, the
process exit code, and the state directory afterwards. -/
structure HookResult where
  response : Response
  channel : Channel
  exitCode : Nat
  store : Store
deriving Repr, DecidableEq

/-- The `additionalContext` payload attached to a question prompt (line 175). -/
def questionContextMsg : String :=
  "USER ASKED A QUESTION: You must answer it before doing anything else. DO NOT use tools. DO NOT perform actions. ONLY provide the answer."

/-- The block message for a non-read-only tool while a question is pending
(line 217), with `SAFE_TOOLS` joined in insertion order. -/
def questionBlockMsg : String :=
  "THE USER ASKED A QUESTION. You must answer the question before performing any actions. You may use these tools to help answer: Read, Grep, Glob, LS, WebFetch, WebSearch, ListMcpResourcesTool, ReadMcpResourceTool, TodoRead."

/-- The block message for an unapproved `git commit` (line 239). -/
def commitBlockMsg : String :=
  "Committing without user's review and approval is OFFENSIVE, RUDE, and INAPPROPRIATE."

/-- The `UserPromptSubmit` branch (lines 139-197): each recognizer
independently persists its flag with the residual text; a question prompt gets
the context payload, everything else the neutral `{}`; never blocks. -/
def handlePromptSubmit (d : HookData) (st : Store) : HookResult :=
  { response :=
      if isQuestionPrefix (d.prompt.getD "undefined") = true then
        Response.questionContext questionContextMsg
      else Response.empty,
    channel := Channel.stdout,
    exitCode := 0,
    store :=
      { question :=
          if isQuestionPrefix (d.prompt.getD "undefined") = true then
            setFlag (sessionOf d) (stripQuestion (d.prompt.getD "undefined")) st.question
          else st.question,
        commit :=
          if isCommitPrefix (d.prompt.getD "undefined") = true then
            setFlag (sessionOf d) (stripCommit (d.prompt.getD "undefined")) st.commit
          else st.commit } }

/-- The `PreToolUse` branch (lines 199-269): a pending question blocks every
non-safe tool; otherwise a truthy Bash command matching the git-commit pattern
is blocked unless the commit marker exists; otherwise allow. -/
def handlePreToolUse (d : HookData) (st : Store) : HookResult :=
  if (getFlag (sessionOf d) st.question).isSome = true ∧ isSafeTool (toolNameOf d) = false then
    { response := Response.error questionBlockMsg, channel := Channel.stderr,
      exitCode := 2, store := st }
  else
    match commandOf d with
    | some cmd =>
      if toolNameOf d = some "Bash" ∧ isGitCommit cmd = true then
        if (getFlag (sessionOf d) st.commit).isSome = true then
          { response := Response.empty, channel := Channel.stdout, exitCode := 0, store := st }
        else
          { response := Response.error commitBlockMsg, channel := Channel.stderr,
            exitCode := 2, store := st }
      else
        { response := Response.empty, channel := Channel.stdout, exitCode := 0, store := st }
    | none =>
      { response := Response.empty, channel := Channel.stdout, exitCode := 0, store := st }

/-- The event switch of `handleHook` (lines 138-293): `Stop` and
`SessionStart` share the cleanup path, unknown events pass through. -/
def handleEvent (d : HookData) (st : Store) : HookResult :=
  if d.hook_event_name = "UserPromptSubmit" then handlePromptSubmit d st
  else if d.hook_event_name = "PreToolUse" then handlePreToolUse d st
  else if d.hook_event_name = "Stop" ∨ d.hook_event_name = "SessionStart" then
    { response := Response.empty, channel := Channel.stdout, exitCode := 0,
      store := cleanupSession (sessionOf d) st }
  else
    { response := Response.empty, channel := Channel.stdout, exitCode := 0, store := st }

/-- One whole invocation: a parse failure takes the catch path (lines
294-306), which prints the error-shaped body via `console.log` (standard
output) and exits 1; a parsed event is dispatched. -/
def runHook (input : Except String HookData) (st : Store) : HookResult :=
  match input with
  | Except.ok d => handleEvent d st
  | Except.error msg =>
    { response := Response.error ("Hook handler error: " ++ msg),
      channel := Channel.stdout, exitCode := 1, store := st }

/-! ### Basic lemmas about the store, the classifier and the matchers -/

theorem getFlag_setFlag_same (sid t : String) (m : List (String × String)) :
    getFlag sid (setFlag sid t m) = some t := by
  simp [setFlag, getFlag]

theorem getFlag_eraseKey_same (sid : String) (m : List (String × String)) :
    getFlag sid (eraseKey sid m) = none := by
  induction m with
  | nil => rfl
  | cons p m ih =>
    obtain ⟨k, v⟩ := p
    by_cases h : k = sid
    · simpa [eraseKey, h] using ih
    · simp [eraseKey, h, getFlag, ih]

theorem stripCI_append {pat m r : List Char} (h : stripCI pat m = some r) (l : List Char) :
    stripCI pat (m ++ l) = some (r ++ l) := by
  induction pat generalizing m r with
  | nil =>
    simp [stripCI] at h
    subst h
    simp [stripCI]
  | cons p ps ih =>
    cases m with
    | nil => simp [stripCI] at h
    | cons c m' =>
      simp only [stripCI, List.cons_append] at h ⊢
      by_cases hc : lowerAscii c = p
      · rw [if_pos hc] at h ⊢
        exact ih h
      · rw [if_neg hc] at h
        cases h

theorem stripCI_ne_head {p c : Char} {ps l : List Char} (h : lowerAscii c ≠ p) :
    stripCI (p :: ps) (c :: l) = none := by
  simp [stripCI, h]

theorem isCommitPrefix_Q (l : List Char) : isCommitPrefix (String.mk ('Q' :: l)) = false := by
  unfold isCommitPrefix
  have hd : (String.mk ('Q' :: l)).data = 'Q' :: l := rfl
  rw [hd, show commitMarker = 'c' :: ['o', 'm', 'm', 'i', 't', '!'] from rfl,
    stripCI_ne_head (by decide)]

theorem question_commit_disjoint (p : String) :
    ¬ (isQuestionPrefix p = true ∧ isCommitPrefix p = true) := by
  obtain ⟨l⟩ := p
  rintro ⟨hq, hc⟩
  rcases l with _ | ⟨c1, _ | ⟨c2, _ | ⟨c3, l3⟩⟩⟩
  · simp [isQuestionPrefix] at hq
  · simp [isQuestionPrefix] at hq
  · simp [isQuestionPrefix] at hq
  · have h1 : c1 = 'Q' := by
      simp [isQuestionPrefix] at hq
      exact hq.1.1
    subst h1
    rw [isCommitPrefix_Q] at hc
    cases hc

theorem dropWhile_append_all {f : Char → Bool} {w r : List Char} (hw : w.all f = true)
    (hr : headFails f r = true) : (w ++ r).dropWhile f = r := by
  induction w with
  | nil =>
    cases r with
    | nil => rfl
    | cons c r' =>
      simp only [headFails, Bool.not_eq_true'] at hr
      simp [List.dropWhile, hr]
  | cons c w' ih =>
    simp only [List.all_cons, Bool.and_eq_true] at hw
    simp [List.dropWhile, hw.1, ih hw.2]

theorem matchLit_append {k : List Char → Bool} {l : List Char} (pat : List Char)
    (h : k l = true) : matchLit pat k (pat ++ l) = true := by
  induction pat with
  | nil => simpa [matchLit] using h
  | cons p ps ih => simp [matchLit, ih]

theorem matchClsStar_of_k {f : Char → Bool} {k : List Char → Bool} {l : List Char}
    (h : k l = true) : matchClsStar f k l = true := by
  cases l <;> simp [matchClsStar, h]

theorem matchClsStar_append {f : Char → Bool} {k : List Char → Bool} {w l : List Char}
    (hw : w.all f = true) (h : k l = true) : matchClsStar f k (w ++ l) = true := by
  induction w with
  | nil => simpa using matchClsStar_of_k h
  | cons c w' ih =>
    simp only [List.all_cons, Bool.and_eq_true] at hw
    simp [matchClsStar, hw.1, ih hw.2]

theorem matchClsPlus_append {f : Char → Bool} {k : List Char → Bool} {w l : List Char}
    (hne : w ≠ []) (hw : w.all f = true) (h : k l = true) :
    matchClsPlus f k (w ++ l) = true := by
  cases w with
  | nil => exact absurd rfl hne
  | cons c w' =>
    simp only [List.all_cons, Bool.and_eq_true] at hw
    simp [matchClsPlus, hw.1, matchClsStar_append hw.2 h]

theorem searchB_head {atPos : List Char → Bool} {c : Char} {l : List Char}
    (h : atPos (c :: l) = true) : searchB atPos false (c :: l) = true := by
  simp [searchB, h]

/-! ### Dispatch lemmas -/

theorem promptSubmit_result (d : HookData) (st : Store)
    (hev : d.hook_event_name = "UserPromptSubmit") :
    handleEvent d st = handlePromptSubmit d st := by
  unfold handleEvent
  rw [hev, if_pos rfl]

theorem preToolUse_result (d : HookData) (st : Store)
    (hev : d.hook_event_name = "PreToolUse") :
    handleEvent d st = handlePreToolUse d st := by
  unfold handleEvent
  rw [hev, if_neg (by decide), if_pos rfl]

theorem boundary_result (d : HookData) (st : Store)
    (hev : d.hook_event_name = "Stop" ∨ d.hook_event_name = "SessionStart") :
    handleEvent d st =
      { response := Response.empty, channel := Channel.stdout, exitCode := 0,
        store := cleanupSession (sessionOf d) st } := by
  unfold handleEvent
  rcases hev with h | h <;>
    rw [h, if_neg (by decide), if_neg (by decide), if_pos (by decide)]

theorem handlePreToolUse_store (d : HookData) (st : Store) :
    (handlePreToolUse d st).store = st := by
  unfold handlePreToolUse
  repeat' split
  all_goals rfl

theorem preToolUse_store_eq (d : HookData) (st : Store)
    (hev : d.hook_event_name = "PreToolUse") : (handleEvent d st).store = st := by
  rw [preToolUse_result d st hev, handlePreToolUse_store]

theorem foldl_preToolUse (ds : List HookData) (st : Store)
    (h : ∀ e ∈ ds, e.hook_event_name = "PreToolUse") :
    List.foldl (fun s e => (handleEvent e s).store) st ds = st := by
  induction ds generalizing st with
  | nil => rfl
  | cons e ds ih =>
    simp only [List.foldl]
    rw [preToolUse_store_eq e st (h e (List.mem_cons_self e ds))]
    exact ih st (fun e' he' => h e' (List.mem_cons_of_mem e he'))

theorem isSafeTool_ne_bash {t : Option String} (h : isSafeTool t = true) :
    t ≠ some "Bash" := by
  intro he
  rw [he] at h
  exact absurd h (by decide)

/-! ### Claim theorems -/

/-- C1: during a `PreToolUse` event in a session whose question flag is set, a
tool name outside the fixed read-only allow-list `SAFE_TOOLS` yields BLOCK with
the error payload and exit code 2 regardless of the commit-approval flag, and a
tool name inside the allow-list yields ALLOW with the neutral response and exit
code 0. -/
theorem c1_question_gate (d : HookData) (st : Store)
    (hev : d.hook_event_name = "PreToolUse")
    (hq : (getFlag (sessionOf d) st.question).isSome = true) :
    (isSafeTool (toolNameOf d) = false →
      handleEvent d st =
        { response := Response.error questionBlockMsg, channel := Channel.stderr,
          exitCode := 2, store := st }) ∧
    (isSafeTool (toolNameOf d) = true →
      handleEvent d st =
        { response := Response.empty, channel := Channel.stdout, exitCode := 0,
          store := st }) := by
  rw [preToolUse_result d st hev]
  constructor
  · intro hs
    unfold handlePreToolUse
    rw [if_pos ⟨hq, hs⟩]
  · intro hs
    have hb : toolNameOf d ≠ some "Bash" := isSafeTool_ne_bash hs
    unfold handlePreToolUse
    rw [if_neg (by simp [hs])]
    split
    · rw [if_neg (fun h => hb h.1)]
    · rfl

/-- Witness for C1: with the question flag set for session `s1`, the `Write`
tool is blocked with exit code 2. -/
theorem c1_question_gate_witness :
    (⟨some "s1", "PreToolUse", none, some "Write", none, none, none,
      none⟩ : HookData).hook_event_name = "PreToolUse" ∧
    (getFlag (sessionOf ⟨some "s1", "PreToolUse", none, some "Write", none, none, none, none⟩)
      (⟨[("s1", "what is x?")], []⟩ : Store).question).isSome = true ∧
    handleEvent ⟨some "s1", "PreToolUse", none, some "Write", none, none, none, none⟩
        ⟨[("s1", "what is x?")], []⟩ =
      { response := Response.error questionBlockMsg, channel := Channel.stderr,
        exitCode := 2, store := ⟨[("s1", "what is x?")], []⟩ } := by
  refine ⟨rfl, by decide, ?_⟩
  exact (c1_question_gate ⟨some "s1", "PreToolUse", none, some "Write", none, none, none, none⟩
    ⟨[("s1", "what is x?")], []⟩ rfl (by decide)).1 (by decide)

/-- C2: during a `PreToolUse` event naming the `Bash` tool with a truthy
command matching the git-commit pattern, in a session with no question flag:
absence of the commit-approval flag yields BLOCK with exit code 2, presence
yields ALLOW with exit code 0; and any sequence of `PreToolUse` events leaves
the stored flags unchanged, so the flag persists until a session boundary. -/
theorem c2_commit_gate (d : HookData) (st : Store) (cmd : String) (ds : List HookData)
    (hev : d.hook_event_name = "PreToolUse")
    (hq : (getFlag (sessionOf d) st.question).isSome = false)
    (hbash : toolNameOf d = some "Bash")
    (hcmd : commandOf d = some cmd)
    (hgit : isGitCommit cmd = true)
    (hds : ∀ e ∈ ds, e.hook_event_name = "PreToolUse") :
    ((getFlag (sessionOf d) st.commit).isSome = false →
      handleEvent d st =
        { response := Response.error commitBlockMsg, channel := Channel.stderr,
          exitCode := 2, store := st }) ∧
    ((getFlag (sessionOf d) st.commit).isSome = true →
      handleEvent d st =
        { response := Response.empty, channel := Channel.stdout, exitCode := 0,
          store := st }) ∧
    List.foldl (fun s e => (handleEvent e s).store) st ds = st := by
  rw [preToolUse_result d st hev]
  refine ⟨?_, ?_, foldl_preToolUse ds st hds⟩
  · intro hc
    unfold handlePreToolUse
    simp only [hcmd]
    rw [if_neg (by simp [hq]), if_pos ⟨hbash, hgit⟩, if_neg (by simp [hc])]
  · intro hc
    unfold handlePreToolUse
    simp only [hcmd]
    rw [if_neg (by simp [hq]), if_pos ⟨hbash, hgit⟩, if_pos hc]

/-- Witness for C2: a fresh session `s3` issuing `git commit -m x` through
`Bash` is blocked with exit code 2. -/
theorem c2_commit_gate_witness :
    (⟨some "s3", "PreToolUse", none, some "Bash", none, some ⟨some "git commit -m x"⟩,
      none, none⟩ : HookData).hook_event_name = "PreToolUse" ∧
    isGitCommit "git commit -m x" = true ∧
    handleEvent
        ⟨some "s3", "PreToolUse", none, some "Bash", none, some ⟨some "git commit -m x"⟩,
          none, none⟩ ⟨[], []⟩ =
      { response := Response.error commitBlockMsg, channel := Channel.stderr,
        exitCode := 2, store := ⟨[], []⟩ } := by
  refine ⟨rfl, by decide, ?_⟩
  exact (c2_commit_gate
    ⟨some "s3", "PreToolUse", none, some "Bash", none, some ⟨some "git commit -m x"⟩, none, none⟩
    ⟨[], []⟩ "git commit -m x" [] rfl (by decide) (by decide) (by decide)
    (by decide) (by simp)).1 (by decide)

/-- C3: immediately after a `Stop` or `SessionStart` event, whatever the prior
flag state, both the question flag and commit flag of the session are absent
and the neutral response is emitted with exit code 0 on standard output (the
clearing is a total function, so it cannot fail on already-absent records). -/
theorem c3_session_boundary_clears (d : HookData) (st : Store)
    (hev : d.hook_event_name = "Stop" ∨ d.hook_event_name = "SessionStart") :
    getFlag (sessionOf d) (handleEvent d st).store.question = none ∧
    getFlag (sessionOf d) (handleEvent d st).store.commit = none ∧
    (handleEvent d st).response = Response.empty ∧
    (handleEvent d st).channel = Channel.stdout ∧
    (handleEvent d st).exitCode = 0 := by
  rw [boundary_result d st hev]
  exact ⟨getFlag_eraseKey_same _ _, getFlag_eraseKey_same _ _, rfl, rfl, rfl⟩

/-- Witness for C3: a `Stop` event for session `s1` clears both flags that
were previously set. -/
theorem c3_session_boundary_clears_witness :
    ((⟨some "s1", "Stop", none, none, none, none, none, none⟩ : HookData).hook_event_name = "Stop" ∨
      (⟨some "s1", "Stop", none, none, none, none, none, none⟩ : HookData).hook_event_name = "SessionStart") ∧
    getFlag "s1"
      (handleEvent ⟨some "s1", "Stop", none, none, none, none, none, none⟩
        ⟨[("s1", "q")], [("s1", "c")]⟩).store.question = none ∧
    getFlag "s1"
      (handleEvent ⟨some "s1", "Stop", none, none, none, none, none, none⟩
        ⟨[("s1", "q")], [("s1", "c")]⟩).store.commit = none := by
  refine ⟨Or.inl rfl, ?_, ?_⟩
  · exact (c3_session_boundary_clears
      ⟨some "s1", "Stop", none, none, none, none, none, none⟩
      ⟨[("s1", "q")], [("s1", "c")]⟩ (Or.inl rfl)).1
  · exact (c3_session_boundary_clears
      ⟨some "s1", "Stop", none, none, none, none, none, none⟩
      ⟨[("s1", "q")], [("s1", "c")]⟩ (Or.inl rfl)).2.1

/-- C4: a prompt that begins with the case-sensitive marker `Q:` followed by at
least one whitespace character matches the question convention; after the
`UserPromptSubmit` event the question flag is set and its stored text is the
prompt with the marker and the following whitespace removed.  A prompt whose
marker differs in case, or that lacks the following whitespace, does not match. -/
theorem c4_question_residual (d : HookData) (st : Store) (w r : List Char)
    (hev : d.hook_event_name = "UserPromptSubmit")
    (hp : d.prompt = some (String.mk ('Q' :: ':' :: (w ++ r))))
    (hw : w ≠ []) (hwall : w.all jsWs = true) (hr : headFails jsWs r = true) :
    isQuestionPrefix (String.mk ('Q' :: ':' :: (w ++ r))) = true ∧
    getFlag (sessionOf d) (handleEvent d st).store.question = some (String.mk r) ∧
    (∀ (c : Char) (rest : List Char), c ≠ 'Q' →
      isQuestionPrefix (String.mk (c :: rest)) = false) ∧
    (∀ (c : Char) (rest : List Char), jsWs c = false →
      isQuestionPrefix (String.mk ('Q' :: ':' :: c :: rest)) = false) := by
  have hQ : isQuestionPrefix (String.mk ('Q' :: ':' :: (w ++ r))) = true := by
    cases w with
    | nil => exact absurd rfl hw
    | cons c w' =>
      have h1 : isQuestionPrefix (String.mk ('Q' :: ':' :: (c :: w' ++ r))) =
          ('Q' == 'Q' && ':' == ':' && jsWs c) := rfl
      simp only [List.all_cons, Bool.and_eq_true] at hwall
      rw [h1]
      simp [hwall.1]
  have hstrip : stripQuestion (String.mk ('Q' :: ':' :: (w ++ r))) = String.mk r := by
    have h1 : stripQuestion (String.mk ('Q' :: ':' :: (w ++ r))) =
        if 'Q' = 'Q' ∧ ':' = ':' then String.mk ((w ++ r).dropWhile jsWs)
        else String.mk ('Q' :: ':' :: (w ++ r)) := rfl
    rw [h1, if_pos ⟨rfl, rfl⟩, dropWhile_append_all hwall hr]
  refine ⟨hQ, ?_, ?_, ?_⟩
  · rw [promptSubmit_result d st hev]
    unfold handlePromptSubmit
    rw [hp]
    simp only [Option.getD_some]
    rw [if_pos hQ, getFlag_setFlag_same, hstrip]
  · intro c rest hc
    rcases rest with _ | ⟨a, _ | ⟨b, l⟩⟩
    · rfl
    · rfl
    · have h1 : isQuestionPrefix (String.mk (c :: a :: b :: l)) =
          (c == 'Q' && a == ':' && jsWs b) := rfl
      simp [h1, hc]
  · intro c rest hcws
    have h1 : isQuestionPrefix (String.mk ('Q' :: ':' :: c :: rest)) =
        ('Q' == 'Q' && ':' == ':' && jsWs c) := rfl
    simp [h1, hcws]

/-- Witness for C4: the prompt `Q: what is x?` stores the question flag with
residual `what is x?`, while `q: x` and `Q:x` do not match. -/
theorem c4_question_residual_witness :
    (⟨some "s1", "UserPromptSubmit", some "Q: what is x?", none, none, none, none,
      none⟩ : HookData).prompt = some (String.mk ('Q' :: ':' :: ([' '] ++ "what is x?".data))) ∧
    getFlag "s1"
      (handleEvent
        ⟨some "s1", "UserPromptSubmit", some "Q: what is x?", none, none, none, none, none⟩
        ⟨[], []⟩).store.question = some (String.mk "what is x?".data) ∧
    isQuestionPrefix "q: x" = false ∧ isQuestionPrefix "Q:x" = false := by
  refine ⟨by decide, ?_, by decide, by decide⟩
  exact (c4_question_residual
    ⟨some "s1", "UserPromptSubmit", some "Q: what is x?", none, none, none, none, none⟩
    ⟨[], []⟩ [' '] "what is x?".data rfl (by decide) (by decide) (by decide) (by decide)).2.1

/-- C6: the git-commit recognizer accepts the bare form `git commit ...` and
every flag-prefixed form `git <flags> commit ...` in which whitespace separates
`git`, the flag text (any characters other than line terminators) and the
literal `commit` followed by a word boundary. -/
theorem c6_flag_tolerant_recognizer (w1 f w2 rest : List Char)
    (hw1 : w1 ≠ []) (hw1a : w1.all jsWs = true)
    (hw2 : w2 ≠ []) (hw2a : w2.all jsWs = true)
    (hf : f.all dotChar = true)
    (hrest : headFails wordChar rest = true) :
    isGitCommit (String.mk
      ('g' :: 'i' :: 't' :: (w1 ++ ('c' :: 'o' :: 'm' :: 'm' :: 'i' :: 't' :: rest)))) = true ∧
    isGitCommit (String.mk
      ('g' :: 'i' :: 't' ::
        (w1 ++ (f ++ (w2 ++ ('c' :: 'o' :: 'm' :: 'm' :: 'i' :: 't' :: rest)))))) = true := by
  have hcb : commitB ('c' :: 'o' :: 'm' :: 'm' :: 'i' :: 't' :: rest) = true :=
    matchLit_append ['c', 'o', 'm', 'm', 'i', 't'] hrest
  constructor
  · have hk : matchClsPlus jsWs commitB
        (w1 ++ ('c' :: 'o' :: 'm' :: 'm' :: 'i' :: 't' :: rest)) = true :=
      matchClsPlus_append hw1 hw1a hcb
    have hat : p1At
        ('g' :: 'i' :: 't' :: (w1 ++ ('c' :: 'o' :: 'm' :: 'm' :: 'i' :: 't' :: rest))) = true :=
      matchLit_append ['g', 'i', 't'] hk
    simp [isGitCommit, searchB_head hat]
  · have hk2 : matchClsPlus jsWs commitB
        (w2 ++ ('c' :: 'o' :: 'm' :: 'm' :: 'i' :: 't' :: rest)) = true :=
      matchClsPlus_append hw2 hw2a hcb
    have hstar : matchClsStar dotChar (matchClsPlus jsWs commitB)
        (f ++ (w2 ++ ('c' :: 'o' :: 'm' :: 'm' :: 'i' :: 't' :: rest))) = true :=
      matchClsStar_append hf hk2
    have hplus : matchClsPlus jsWs (matchClsStar dotChar (matchClsPlus jsWs commitB))
        (w1 ++ (f ++ (w2 ++ ('c' :: 'o' :: 'm' :: 'm' :: 'i' :: 't' :: rest)))) = true :=
      matchClsPlus_append hw1 hw1a hstar
    have hat : p2At
        ('g' :: 'i' :: 't' ::
          (w1 ++ (f ++ (w2 ++ ('c' :: 'o' :: 'm' :: 'm' :: 'i' :: 't' :: rest))))) = true :=
      matchLit_append ['g', 'i', 't'] hplus
    simp [isGitCommit, searchB_head hat]

/-- Witness for C6: both `git commit -m hi` and the flag-prefixed
`git -c key=value commit -m x` are recognized. -/
theorem c6_flag_tolerant_recognizer_witness :
    ([' '] : List Char) ≠ [] ∧ ([' '] : List Char).all jsWs = true ∧
    isGitCommit "git commit -m hi" = true ∧
    isGitCommit "git -c key=value commit -m x" = true := by
  refine ⟨by decide, by decide, ?_, ?_⟩
  · exact (c6_flag_tolerant_recognizer [' '] [] [' '] " -m hi".data
      (by decide) (by decide) (by decide) (by decide) (by decide) (by decide)).1
  · exact (c6_flag_tolerant_recognizer [' '] "-c key=value".data [' '] " -m x".data
      (by decide) (by decide) (by decide) (by decide) (by decide) (by decide)).2

/-- C5 counterexample: on malformed input the dispatcher's catch path emits
the error-shaped body via `console.log`, i.e. on the standard output channel
(exit code 1), not on the standard error channel as the claim states. -/
theorem c5_counterexample :
    (runHook (Except.error "Unexpected end of JSON input")
      ⟨[], []⟩).response = Response.error "Hook handler error: Unexpected end of JSON input" ∧
    (runHook (Except.error "Unexpected end of JSON input") ⟨[], []⟩).exitCode = 1 ∧
    (runHook (Except.error "Unexpected end of JSON input") ⟨[], []⟩).channel = Channel.stdout ∧
    ¬ (runHook (Except.error "Unexpected end of JSON input") ⟨[], []⟩).channel = Channel.stderr := by
  exact ⟨rfl, rfl, rfl, by decide⟩

/-- C5 (amended): every invocation emits exactly one body; allow/neutral
outcomes go to standard output with exit code 0, blocking outcomes carry an
error-shaped body on standard error with exit code 2, and malformed input is
caught at the dispatcher boundary and reported as an error-shaped response on
standard output with exit code 1. -/
theorem c5_output_discipline (input : Except String HookData) (st : Store) :
    ((runHook input st).channel = Channel.stdout ∧ (runHook input st).exitCode = 0 ∧
      ((runHook input st).response = Response.empty ∨
        (runHook input st).response = Response.questionContext questionContextMsg)) ∨
    ((runHook input st).channel = Channel.stderr ∧ (runHook input st).exitCode = 2 ∧
      ((runHook input st).response = Response.error questionBlockMsg ∨
        (runHook input st).response = Response.error commitBlockMsg)) ∨
    ((runHook input st).channel = Channel.stdout ∧ (runHook input st).exitCode = 1 ∧
      ∃ m : String, (runHook input st).response = Response.error ("Hook handler error: " ++ m)) := by
  cases input with
  | error msg => exact Or.inr (Or.inr ⟨rfl, rfl, msg, rfl⟩)
  | ok d =>
    have hrw : runHook (Except.ok d) st = handleEvent d st := rfl
    rw [hrw]
    unfold handleEvent
    split
    · unfold handlePromptSubmit
      by_cases hq : isQuestionPrefix (d.prompt.getD "undefined") = true
      · exact Or.inl ⟨rfl, rfl, Or.inr (by rw [if_pos hq])⟩
      · exact Or.inl ⟨rfl, rfl, Or.inl (by rw [if_neg hq])⟩
    · split
      · unfold handlePreToolUse
        split
        · exact Or.inr (Or.inl ⟨rfl, rfl, Or.inl rfl⟩)
        · split
          · split
            · split
              · exact Or.inl ⟨rfl, rfl, Or.inl rfl⟩
              · exact Or.inr (Or.inl ⟨rfl, rfl, Or.inr rfl⟩)
            · exact Or.inl ⟨rfl, rfl, Or.inl rfl⟩
          · exact Or.inl ⟨rfl, rfl, Or.inl rfl⟩
      · split
        · exact Or.inl ⟨rfl, rfl, Or.inl rfl⟩
        · exact Or.inl ⟨rfl, rfl, Or.inl rfl⟩

/-- C7 counterexample: no prompt matches both the question convention and the
commit-approval convention — the question marker fixes the first character to
`Q` while the commit marker requires `c` or `C` — so the claimed simultaneous
match is impossible. -/
theorem c7_counterexample :
    ¬ ∃ p : String, isQuestionPrefix p = true ∧ isCommitPrefix p = true := by
  rintro ⟨p, h⟩
  exact question_commit_disjoint p h

/-- C7 (amended): no prompt matches both conventions; the two recognizers are
nevertheless evaluated independently, and whichever of them matches a prompt
sets its own flag in that invocation. -/
theorem c7_recognizers_independent (d : HookData) (st : Store) (p : String)
    (hev : d.hook_event_name = "UserPromptSubmit") (hp : d.prompt = some p) :
    ¬ (isQuestionPrefix p = true ∧ isCommitPrefix p = true) ∧
    (isQuestionPrefix p = true →
      getFlag (sessionOf d) (handleEvent d st).store.question = some (stripQuestion p)) ∧
    (isCommitPrefix p = true →
      getFlag (sessionOf d) (handleEvent d st).store.commit = some (stripCommit p)) := by
  refine ⟨question_commit_disjoint p, ?_, ?_⟩
  · intro hq
    rw [promptSubmit_result d st hev]
    unfold handlePromptSubmit
    rw [hp]
    simp only [Option.getD_some]
    rw [if_pos hq, getFlag_setFlag_same]
  · intro hc
    rw [promptSubmit_result d st hev]
    unfold handlePromptSubmit
    rw [hp]
    simp only [Option.getD_some]
    rw [if_pos hc, getFlag_setFlag_same]

/-- Witness for the amended C7: `commit! fix bug` sets only the commit flag,
and the impossibility of a double match holds at that prompt. -/
theorem c7_recognizers_independent_witness :
    ¬ (isQuestionPrefix "commit! fix bug" = true ∧ isCommitPrefix "commit! fix bug" = true) ∧
    (isCommitPrefix "commit! fix bug" = true →
      getFlag "s2"
        (handleEvent
          ⟨some "s2", "UserPromptSubmit", some "commit! fix bug", none, none, none, none, none⟩
          ⟨[], []⟩).store.commit = some (stripCommit "commit! fix bug")) := by
  refine ⟨?_, ?_⟩
  · exact (c7_recognizers_independent
      ⟨some "s2", "UserPromptSubmit", some "commit! fix bug", none, none, none, none, none⟩
      ⟨[], []⟩ "commit! fix bug" rfl rfl).1
  · exact (c7_recognizers_independent
      ⟨some "s2", "UserPromptSubmit", some "commit! fix bug", none, none, none, none, none⟩
      ⟨[], []⟩ "commit! fix bug" rfl rfl).2.2

/-- C8: a prompt that begins with the case-insensitive marker `commit!`
followed by end-of-string or whitespace matches the commit-approval
convention, and after the `UserPromptSubmit` event the commit flag is set with
the residual (the prompt with the marker and following whitespace stripped) as
its text. -/
theorem c8_commit_approval_convention (d : HookData) (st : Store) (m w r : List Char)
    (hev : d.hook_event_name = "UserPromptSubmit")
    (hp : d.prompt = some (String.mk (m ++ (w ++ r))))
    (hm : stripCI commitMarker m = some [])
    (hwr : (w = [] ∧ r = []) ∨ (w ≠ [] ∧ w.all jsWs = true ∧ headFails jsWs r = true)) :
    isCommitPrefix (String.mk (m ++ (w ++ r))) = true ∧
    getFlag (sessionOf d) (handleEvent d st).store.commit = some (String.mk r) := by
  have hstripci : stripCI commitMarker (m ++ (w ++ r)) = some (w ++ r) := by
    have h := stripCI_append hm (w ++ r)
    simpa using h
  have hcp : isCommitPrefix (String.mk (m ++ (w ++ r))) = true := by
    unfold isCommitPrefix
    have hd : (String.mk (m ++ (w ++ r))).data = m ++ (w ++ r) := rfl
    rw [hd, hstripci]
    rcases hwr with ⟨hw, hrr⟩ | ⟨hw, hwall, hhr⟩
    · subst hw; subst hrr; rfl
    · cases w with
      | nil => exact absurd rfl hw
      | cons c w' =>
        simp only [List.all_cons, Bool.and_eq_true] at hwall
        exact hwall.1
  have hresid : stripCommit (String.mk (m ++ (w ++ r))) = String.mk r := by
    unfold stripCommit
    have hd : (String.mk (m ++ (w ++ r))).data = m ++ (w ++ r) := rfl
    rw [hd, hstripci]
    rcases hwr with ⟨hw, hrr⟩ | ⟨hw, hwall, hhr⟩
    · subst hw; subst hrr; rfl
    · show String.mk ((w ++ r).dropWhile jsWs) = String.mk r
      rw [dropWhile_append_all hwall hhr]
  refine ⟨hcp, ?_⟩
  rw [promptSubmit_result d st hev]
  unfold handlePromptSubmit
  rw [hp]
  simp only [Option.getD_some]
  rw [if_pos hcp, getFlag_setFlag_same, hresid]

/-- Witness for C8: the prompt `Commit! fix bug` (mixed case) sets the commit
flag for session `s2` with residual `fix bug`. -/
theorem c8_commit_approval_convention_witness :
    stripCI commitMarker "Commit!".data = some [] ∧
    isCommitPrefix (String.mk ("Commit!".data ++ ([' '] ++ "fix bug".data))) = true ∧
    getFlag "s2"
      (handleEvent
        ⟨some "s2", "UserPromptSubmit", some "Commit! fix bug", none, none, none, none, none⟩
        ⟨[], []⟩).store.commit = some (String.mk "fix bug".data) := by
  refine ⟨by decide, ?_, ?_⟩
  · exact (c8_commit_approval_convention
      ⟨some "s2", "UserPromptSubmit", some "Commit! fix bug", none, none, none, none, none⟩
      ⟨[], []⟩ "Commit!".data [' '] "fix bug".data rfl (by decide) (by decide)
      (Or.inr ⟨by decide, by decide, by decide⟩)).1
  · exact (c8_commit_approval_convention
      ⟨some "s2", "UserPromptSubmit", some "Commit! fix bug", none, none, none, none, none⟩
      ⟨[], []⟩ "Commit!".data [' '] "fix bug".data rfl (by decide) (by decide)
      (Or.inr ⟨by decide, by decide, by decide⟩)).2

/-- C9: a `UserPromptSubmit` event whose prompt matches neither convention
leaves the store untouched and emits the neutral `{}` on standard output with
exit code 0; moreover no `UserPromptSubmit` event ever blocks (every such
event exits 0 on standard output). -/
theorem c9_no_convention_noop (d : HookData) (st : Store) (p : String)
    (hev : d.hook_event_name = "UserPromptSubmit")
    (hp : d.prompt = some p)
    (hq : isQuestionPrefix p = false) (hc : isCommitPrefix p = false) :
    handleEvent d st =
      { response := Response.empty, channel := Channel.stdout, exitCode := 0, store := st } ∧
    (∀ (e : HookData) (s : Store), e.hook_event_name = "UserPromptSubmit" →
      (handleEvent e s).exitCode = 0 ∧ (handleEvent e s).channel = Channel.stdout) := by
  constructor
  · rw [promptSubmit_result d st hev]
    unfold handlePromptSubmit
    rw [hp]
    simp only [Option.getD_some]
    rw [if_neg (by simp [hq]), if_neg (by simp [hq]), if_neg (by simp [hc])]
  · intro e s he
    rw [promptSubmit_result e s he]
    exact ⟨rfl, rfl⟩

/-- Witness for C9: the prompt `hello world` matches neither convention and
the event is a no-op on the store. -/
theorem c9_no_convention_noop_witness :
    isQuestionPrefix "hello world" = false ∧ isCommitPrefix "hello world" = false ∧
    handleEvent
        ⟨some "s1", "UserPromptSubmit", some "hello world", none, none, none, none, none⟩
        ⟨[("s9", "t")], []⟩ =
      { response := Response.empty, channel := Channel.stdout, exitCode := 0,
        store := ⟨[("s9", "t")], []⟩ } := by
  refine ⟨by decide, by decide, ?_⟩
  exact (c9_no_convention_noop
    ⟨some "s1", "UserPromptSubmit", some "hello world", none, none, none, none, none⟩
    ⟨[("s9", "t")], []⟩ "hello world" rfl rfl (by decide) (by decide)).1

/-- C10: the commit-approval gate applies only to the `Bash` tool with a
truthy command: during a `PreToolUse` event with no question flag, any other
tool name — or absent command text — is allowed with exit code 0, whatever the
command would have matched and whatever the commit flag holds. -/
theorem c10_commit_gate_scope (d : HookData) (st : Store)
    (hev : d.hook_event_name = "PreToolUse")
    (hq : (getFlag (sessionOf d) st.question).isSome = false)
    (h : toolNameOf d ≠ some "Bash" ∨ commandOf d = none) :
    handleEvent d st =
      { response := Response.empty, channel := Channel.stdout, exitCode := 0, store := st } := by
  rw [preToolUse_result d st hev]
  unfold handlePreToolUse
  rw [if_neg (by simp [hq])]
  rcases h with h | h
  · split
    · rw [if_neg (fun hand => h hand.1)]
    · rfl
  · rw [h]

/-- Witness for C10: with no question flag, a `Write` tool call whose params
carry a git-commit command is allowed with exit code 0 even though no commit
flag exists. -/
theorem c10_commit_gate_scope_witness :
    (getFlag "s1" (⟨[], []⟩ : Store).question).isSome = false ∧
    toolNameOf
        ⟨some "s1", "PreToolUse", none, some "Write", none, some ⟨some "git commit -m x"⟩,
          none, none⟩ ≠ some "Bash" ∧
    handleEvent
        ⟨some "s1", "PreToolUse", none, some "Write", none, some ⟨some "git commit -m x"⟩,
          none, none⟩ ⟨[], []⟩ =
      { response := Response.empty, channel := Channel.stdout, exitCode := 0,
        store := ⟨[], []⟩ } := by
  refine ⟨by decide, by decide, ?_⟩
  exact c10_commit_gate_scope
    ⟨some "s1", "PreToolUse", none, some "Write", none, some ⟨some "git commit -m x"⟩, none, none⟩
    ⟨[], []⟩ rfl (by decide) (Or.inl (by decide))

end RuleManager
